import Mathlib

/-!
Verification development for the proof-validation and result-aggregation
subsystem of the `lean_llm_test` repository.

The Python sources are embedded shallowly:

* JSON values that may be `true`/`false`/`null`/absent are modelled by
  dedicated inductive types;
* Python `None` becomes `Option.none`;
* real-valued arithmetic (Python floats) is modelled exactly over `ℚ`;
* machine integers are unbounded in Python, so `ℕ`/`ℤ` are used directly;
* code that can raise an exception is modelled as an `Option`-valued
  function, `none` meaning "raises".
-/

namespace LeanLlmTest

/-! ## Candidate records of the canonical merged format

A candidate entry of a merged results file carries an `is_correct` field
that may be the JSON values `true`, `false`, `null`, or be absent entirely
(Python reads it with `c.get('is_correct', False)`). -/

/-- A JSON field value that is a boolean, `null`, or absent. -/
inductive CorrectVal where
  | absent : CorrectVal
  | vnull : CorrectVal
  | vbool : Bool → CorrectVal
deriving DecidableEq, Repr

/-- Python truthiness of `c.get('is_correct', False)`: `True` exactly when
the stored value is the boolean `true`; `False`, `null` and absence are all
falsy. -/
def CorrectVal.truthy : CorrectVal → Bool
  | .vbool b => b
  | _ => false

/-- The fields of one merged candidate record that the metrics code reads. -/
structure CandidateRec where
  proof : String
  is_correct : CorrectVal
deriving DecidableEq, Repr

/-! ## Metrics Engine — `src/src/pass_at_k.py` -/

/-- `sum(1 for c in candidates if c.get('is_correct', False))` in
`compute_pass_at_k`. -/
def correctCount (candidates : List CandidateRec) : ℕ :=
  (candidates.filter (fun c => c.is_correct.truthy)).length

/-- The `if k > n: k = n` reassignment in `compute_pass_at_k`. -/
def clamp (k n : ℕ) : ℕ := if k > n then n else k

/-- `compute_pass_at_k` from `src/src/pass_at_k.py`, with float arithmetic
modelled exactly over `ℚ`.  The `try/except` around the binomials can never
fire (`math.comb` only raises on negative arguments, and all arguments are
naturals here), so it is not modelled. -/
def compute_pass_at_k (candidates : List CandidateRec) (k : ℕ) : ℚ :=
  if candidates = [] then 0
  else if correctCount candidates = 0 then 0
  else if correctCount candidates ≥ clamp k candidates.length then 1
  else 1 - ((candidates.length - correctCount candidates).choose
              (clamp k candidates.length) : ℚ)
           / (candidates.length.choose (clamp k candidates.length) : ℚ)

/-- `has_correct_proof` from `src/src/pass_at_k.py`. -/
def has_correct_proof (candidates : List CandidateRec) : Bool :=
  candidates.any (fun c => c.is_correct.truthy)

/-! ## Longest-correct-proof selection — `src/scripts/find_longest.py`

The inner loop of `find_longest_correct_proofs_directory` that scans the
candidates of one theorem, tracking `(longest_correct_proof,
longest_proof_length, longest_proof_info)`. -/

/-- One step of the scan: a candidate is considered only when its
`is_correct` field is truthy, and replaces the running maximum only on a
strictly greater character length. -/
def longestStep (acc : String × ℕ × Option CandidateRec) (c : CandidateRec) :
    String × ℕ × Option CandidateRec :=
  if c.is_correct.truthy then
    if c.proof.length > acc.2.1 then (c.proof, c.proof.length, some c) else acc
  else acc

/-- The whole per-theorem scan of `find_longest_correct_proofs_directory`,
starting from `("", 0, None)`. -/
def find_longest_scan (candidates : List CandidateRec) :
    String × ℕ × Option CandidateRec :=
  candidates.foldl longestStep ("", 0, none)

/-! ## Checker Session Adapter — `check_context_proofs` in `src/src/validate.py`
(the same function is duplicated verbatim in `src/src/revalidate.py`) -/

/-- `len(s.splitlines())` for a string whose line terminators are `"\n"`:
`0` for the empty string, otherwise the number of newline characters plus
one more unless the string ends in a newline (a trailing newline does not
open a further line). -/
def pySplitlinesLen (s : String) : ℕ :=
  if s.data = [] then 0
  else s.data.count '\n' + (if s.data.getLast? = some '\n' then 0 else 1)

/-- A line/column position of a checker diagnostic. -/
structure SrcPos where
  line : ℤ
  column : ℤ
deriving DecidableEq, Repr

/-- One diagnostic message of a checker response: its text (`data`) and
optional start/end positions. -/
structure DiagMessage where
  data : String
  start_pos : Option SrcPos
  end_pos : Option SrcPos
deriving DecidableEq, Repr

/-- The value returned by `server.run(Command(...))`: either a `LeanError`
(process-level error carrying a message) or a response object carrying the
result of `lean_code_is_valid(allow_sorry=False)` and the list of diagnostic
messages. -/
inductive LeanOutput where
  | leanError : String → LeanOutput
  | response : Bool → List DiagMessage → LeanOutput
deriving DecidableEq, Repr

/-- What one `server.run` call did from the caller's point of view: it
either produced a `LeanOutput`, or raised one of `TimeoutError`,
`ConnectionAbortedError`, `json.JSONDecodeError`. -/
inductive CheckResponse where
  | output : LeanOutput → CheckResponse
  | transportFailure : CheckResponse
deriving DecidableEq, Repr

/-- The four values appended for one proof by one iteration of the loop in
`check_context_proofs` (one slot of the parallel `correctness`,
`error_messages`, `error_positions`, `compiled_line_counts` lists). -/
structure Outcome where
  correctness : Option Bool
  error_message : Option String
  error_position : Option (SrcPos × SrcPos)
  compiled_lines : Option ℤ
deriving DecidableEq, Repr

/-- The body of the `for proof in proofs` loop of `check_context_proofs`,
as a function of the response to `server.run`.  Returns `none` when the
loop body itself raises: the only such case is `messages[0]` on an invalid
result with an empty message list (an `IndexError`, which is not caught by
the `except` clause). -/
def checkOutcome (theorem_statement proof : String) :
    CheckResponse → Option Outcome
  | .transportFailure => some ⟨none, none, none, none⟩
  | .output (.leanError msg) => some ⟨some false, some msg, none, none⟩
  | .output (.response valid msgs) =>
      if valid then
        some ⟨some true, none, none, some (pySplitlinesLen proof : ℤ)⟩
      else
        match msgs with
        | [] => none
        | m :: _ =>
            some ⟨some false, some m.data,
              (match m.start_pos, m.end_pos with
                | some s, some e => some (s, e)
                | _, _ => none),
              (match m.start_pos with
                | some s => some (s.line - (pySplitlinesLen theorem_statement : ℤ))
                | none => none)⟩

/-- The whole loop of `check_context_proofs`: one proof and one checker
response per slot; `none` if any iteration raises. -/
def check_context_proofs (theorem_statement : String)
    (runs : List (String × CheckResponse)) : Option (List Outcome) :=
  runs.mapM (fun pr => checkOutcome theorem_statement pr.1 pr.2)

/-! ## Validation Runner retry loops — `src/src/validate.py` and
`src/src/revalidate.py` -/

/-- One per-task validation record (`validation_result` in
`src/src/validate.py`). -/
structure ValidationRecord where
  statement_idx : ℕ
  correctness : Option (List (Option Bool))
  error_positions : Option (List (Option (SrcPos × SrcPos)))
  error_messages : Option (List (Option String))
  compiled_line_counts : Option (List (Option ℤ))
deriving DecidableEq, Repr

/-- The initial all-`None` record set up before the retry loop. -/
def initRecord (idx : ℕ) : ValidationRecord := ⟨idx, none, none, none, none⟩

/-- The retry bound `n_tries < 3` of the first-pass loop in
`src/src/validate.py`. -/
def validateTries : ℕ := 3

/-- The retry bound `n_tries < 5` of the re-validation loop in
`src/src/revalidate.py`. -/
def revalidateTries : ℕ := 5

/-- The `while validation_result["correctness"] is None and n_tries < bound`
loop.  `attempts i` is what the `i`-th call of `check_context_proofs`
produced: `none` if it raised (the `except Exception` path, which only
prints and retries), `some r` if it returned the record `r`. -/
def retryGo (attempts : ℕ → Option ValidationRecord) :
    ℕ → ℕ → ValidationRecord → ValidationRecord
  | 0, _, current => current
  | remaining + 1, i, current =>
      if current.correctness = none then
        match attempts i with
        | some r => retryGo attempts remaining (i + 1) r
        | none => retryGo attempts remaining (i + 1) current
      else current

/-- The whole per-task attempt loop: start from the all-`None` record and
run at most `bound` attempts.  Always returns a record — the surrounding
code appends / stores it unconditionally, so an exhausted retry never
aborts the run. -/
def runTaskValidation (attempts : ℕ → Option ValidationRecord) (bound : ℕ)
    (idx : ℕ) : ValidationRecord :=
  retryGo attempts bound 0 (initRecord idx)

theorem retryGo_all_fail (attempts : ℕ → Option ValidationRecord) :
    ∀ (fuel i : ℕ) (acc : ValidationRecord),
      (∀ t, i ≤ t → t < i + fuel → attempts t = none) →
      retryGo attempts fuel i acc = acc := by
  intro fuel
  induction fuel with
  | zero => intro i acc _; rfl
  | succ n ih =>
      intro i acc h
      unfold retryGo
      split
      · rw [h i (Nat.le_refl i) (by omega)]
        exact ih (i + 1) acc (fun t ht1 ht2 => h t (by omega) (by omega))
      · rfl

theorem retryGo_congr (a1 a2 : ℕ → Option ValidationRecord) :
    ∀ (fuel i : ℕ) (acc : ValidationRecord),
      (∀ t, i ≤ t → t < i + fuel → a1 t = a2 t) →
      retryGo a1 fuel i acc = retryGo a2 fuel i acc := by
  intro fuel
  induction fuel with
  | zero => intro i acc _; rfl
  | succ n ih =>
      intro i acc h
      unfold retryGo
      split
      · rw [h i (Nat.le_refl i) (by omega)]
        cases a2 i with
        | some r => exact ih (i + 1) r (fun t ht1 ht2 => h t (by omega) (by omega))
        | none => exact ih (i + 1) acc (fun t ht1 ht2 => h t (by omega) (by omega))
      · rfl

/-! ## Re-validation repair pass — `src/src/revalidate.py` -/

/-- The `expected_len = 6` constant of the selection loop in
`src/src/revalidate.py`: the candidate count of the run
(`n_candidates = 6` in the generation configuration of
`src/src/generate.py`). -/
def expected_len : ℕ := 6

/-- The selection test of the loop `for i, result in enumerate(validations)`
in `src/src/revalidate.py`: an entry is scheduled for re-validation when its
`error_messages`, `error_positions` or `correctness` field is `None`, when
one of those three arrays has a length other than `expected_len`, or when
the `correctness` array contains a `None` entry. -/
def malformedEntry (r : ValidationRecord) : Bool :=
  r.error_messages.isNone || r.error_positions.isNone || r.correctness.isNone
  || ((r.error_messages.getD []).length != expected_len)
  || ((r.error_positions.getD []).length != expected_len)
  || ((r.correctness.getD []).length != expected_len)
  || (r.correctness.getD []).any (fun c => c.isNone)

/-- The list of indices scheduled for re-validation (`revalidate` in
`src/src/revalidate.py`), in increasing order. -/
def revalidateIndices (validations : List ValidationRecord) : List ℕ :=
  (List.range validations.length).filter
    (fun i => malformedEntry (validations.getD i (initRecord 0)))

/-- The repair loop `for idx in tqdm(revalidate)` of `src/src/revalidate.py`:
each scheduled entry is replaced in place by the result of the 5-attempt
retry loop (`validations[idx] = validation_result`); `attempts idx` is the
attempt oracle for task `idx`. -/
def repairPass (validations : List ValidationRecord)
    (attempts : ℕ → ℕ → Option ValidationRecord) : List ValidationRecord :=
  (revalidateIndices validations).foldl
    (fun acc idx =>
      acc.set idx (runTaskValidation (attempts idx) revalidateTries idx))
    validations

theorem foldl_set_length (f : ℕ → ValidationRecord) :
    ∀ (idxs : List ℕ) (acc : List ValidationRecord),
      (idxs.foldl (fun a i => a.set i (f i)) acc).length = acc.length := by
  intro idxs
  induction idxs with
  | nil => intro acc; rfl
  | cons x xs ih =>
      intro acc
      rw [List.foldl_cons, ih, List.length_set]

theorem foldl_set_not_mem (f : ℕ → ValidationRecord) :
    ∀ (idxs : List ℕ) (acc : List ValidationRecord) (j : ℕ), j ∉ idxs →
      (idxs.foldl (fun a i => a.set i (f i)) acc).getD j (initRecord 0) =
        acc.getD j (initRecord 0) := by
  intro idxs
  induction idxs with
  | nil => intro acc j _; rfl
  | cons x xs ih =>
      intro acc j hj
      rw [List.foldl_cons, ih _ j (fun h => hj (List.mem_cons_of_mem x h))]
      have hxj : x ≠ j := fun h => hj (h ▸ List.mem_cons_self x xs)
      unfold List.getD
      rw [List.get?_eq_getElem?, List.get?_eq_getElem?, List.getElem?_set_ne hxj]

/-! ## Result Merger — `combine_files` in `src/src/organzie.py` -/

/-- One generation result record (`gen_result`): the parallel per-candidate
arrays produced by the Generation Runner. -/
structure GenResult where
  candidates : List String
  durations : List ℚ
  prompt_tokens : List ℕ
  completion_tokens : List ℕ
  total_tokens : List ℕ
deriving DecidableEq, Repr

/-- One candidate entry of the canonical merged record built by
`combine_files`. -/
structure MergedCandidate where
  proof : String
  is_correct : Option Bool
  duration : ℚ
  prompt_tokens : ℕ
  completion_tokens : ℕ
  total_tokens : ℕ
  compiled_lines : Option ℤ
  error_message : Option String
  error_position : Option (SrcPos × SrcPos)
deriving DecidableEq, Repr

/-- The body of the `for i in range(n_candidates)` loop of `combine_files`:
build the `i`-th candidate dictionary.  Field expressions are evaluated in
the order of the Python dict literal; any out-of-range index (`IndexError`)
or subscript of a `None` field (`TypeError`) raises, modelled by `none`. -/
def mergeCandidate (gen : GenResult) (val : ValidationRecord) (i : ℕ) :
    Option MergedCandidate :=
  match val.correctness with
  | none => do
      let proof ← gen.candidates[i]?
      let d ← gen.durations[i]?
      let pt ← gen.prompt_tokens[i]?
      let ct ← gen.completion_tokens[i]?
      let tt ← gen.total_tokens[i]?
      pure ⟨proof, none, d, pt, ct, tt, none, none, none⟩
  | some corr => do
      let proof ← gen.candidates[i]?
      let ic ← corr[i]?
      let d ← gen.durations[i]?
      let pt ← gen.prompt_tokens[i]?
      let ct ← gen.completion_tokens[i]?
      let tt ← gen.total_tokens[i]?
      let cls ← val.compiled_line_counts
      let cl ← cls[i]?
      let ems ← val.error_messages
      let em ← ems[i]?
      let eps ← val.error_positions
      let ep ← eps[i]?
      pure ⟨proof, ic, d, pt, ct, tt, cl, em, ep⟩

/-- The `for i in range(n_candidates)` loop itself, collecting the
`candidates` list; an exception in any iteration aborts the whole task
merge. -/
def mergeLoop (gen : GenResult) (val : ValidationRecord) :
    ℕ → ℕ → Option (List MergedCandidate)
  | _, 0 => some []
  | i, fuel + 1 => do
      let c ← mergeCandidate gen val i
      let rest ← mergeLoop gen val (i + 1) fuel
      pure (c :: rest)

/-- The per-task candidate merge of `combine_files`, with
`n_candidates = len(gen_result["candidates"])`. -/
def mergeTask (gen : GenResult) (val : ValidationRecord) :
    Option (List MergedCandidate) :=
  mergeLoop gen val 0 gen.candidates.length

/-- The candidate entry `combine_files` builds when the stored validation
correctness is a singular `None`. -/
def nullMergedCand (gen : GenResult) (t : ℕ) : MergedCandidate :=
  ⟨gen.candidates.getD t "", none, gen.durations.getD t 0,
    gen.prompt_tokens.getD t 0, gen.completion_tokens.getD t 0,
    gen.total_tokens.getD t 0, none, none, none⟩

theorem mergeLoop_success_at (gen : GenResult) (val : ValidationRecord) :
    ∀ (fuel i : ℕ) (out : List MergedCandidate),
      mergeLoop gen val i fuel = some out →
      ∀ t, i ≤ t → t < i + fuel → ∃ c, mergeCandidate gen val t = some c := by
  intro fuel
  induction fuel with
  | zero => intro i out _ t ht1 ht2; omega
  | succ n ih =>
      intro i out h t ht1 ht2
      simp only [mergeLoop, Option.bind_eq_some, bind, pure] at h
      obtain ⟨c, hc, rest, hrest, _⟩ := h
      by_cases hti : t = i
      · exact ⟨c, hti ▸ hc⟩
      · exact ih (i + 1) rest hrest t (by omega) (by omega)

theorem mergeLoop_null (gen : GenResult) (val : ValidationRecord)
    (hnull : val.correctness = none)
    (hd : gen.durations.length = gen.candidates.length)
    (hpt : gen.prompt_tokens.length = gen.candidates.length)
    (hct : gen.completion_tokens.length = gen.candidates.length)
    (htt : gen.total_tokens.length = gen.candidates.length) :
    ∀ (fuel i : ℕ), i + fuel ≤ gen.candidates.length →
      mergeLoop gen val i fuel =
        some ((List.range fuel).map (fun j => nullMergedCand gen (i + j))) := by
  intro fuel
  induction fuel with
  | zero => intro i _; rfl
  | succ n ih =>
      intro i hle
      have hi : i < gen.candidates.length := by omega
      have hcand : mergeCandidate gen val i = some (nullMergedCand gen i) := by
        unfold mergeCandidate
        rw [hnull]
        rw [List.getElem?_eq_getElem hi,
          List.getElem?_eq_getElem (hd ▸ hi),
          List.getElem?_eq_getElem (hpt ▸ hi),
          List.getElem?_eq_getElem (hct ▸ hi),
          List.getElem?_eq_getElem (htt ▸ hi)]
        simp only [bind, Option.some_bind, pure]
        unfold nullMergedCand
        rw [List.getD_eq_getElem _ _ hi, List.getD_eq_getElem _ _ (hd ▸ hi),
          List.getD_eq_getElem _ _ (hpt ▸ hi),
          List.getD_eq_getElem _ _ (hct ▸ hi),
          List.getD_eq_getElem _ _ (htt ▸ hi)]
      unfold mergeLoop
      rw [hcand, ih (i + 1) (by omega)]
      simp only [bind, Option.some_bind, pure, Option.some.injEq]
      rw [List.range_succ_eq_map, List.map_cons, List.map_map]
      congr 1
      refine List.map_congr_left ?_
      intro a _
      simp only [Function.comp]
      refine congrArg _ (by omega)

theorem mergeCandidate_length_bounds (gen : GenResult) (val : ValidationRecord)
    (corr : List (Option Bool)) (em : List (Option String))
    (ep : List (Option (SrcPos × SrcPos))) (cl : List (Option ℤ))
    (hc : val.correctness = some corr) (hem : val.error_messages = some em)
    (hep : val.error_positions = some ep)
    (hcl : val.compiled_line_counts = some cl) (t : ℕ)
    (c : MergedCandidate) (h : mergeCandidate gen val t = some c) :
    t < corr.length ∧ t < em.length ∧ t < ep.length ∧ t < cl.length := by
  unfold mergeCandidate at h
  rw [hc, hem, hep, hcl] at h
  simp only [bind, Option.some_bind, pure, Option.bind_eq_some] at h
  obtain ⟨p, hp, ic, hic, d, hdd, pt, hpt2, ct, hct2, tt, htt2, cl2, hcl2,
    em2, hem2, ep2, hep2, _⟩ := h
  refine ⟨?_, ?_, ?_, ?_⟩
  · exact (List.getElem?_eq_some.mp hic).1
  · exact (List.getElem?_eq_some.mp hem2).1
  · exact (List.getElem?_eq_some.mp hep2).1
  · exact (List.getElem?_eq_some.mp hcl2).1

/-! ## Generation Runner — `src/src/generate.py` -/

/-- `extract_proof_from_response` from `src/src/generate.py`: strip a
leading code-fence line (and the trailing fence line when the last line,
stripped, is exactly a closing fence), then strip a leading `":= "`. -/
def extract_proof_from_response (response : String) : String :=
  let proof := response
  let proof :=
    if proof.startsWith "```" then
      let lines := proof.splitOn "\n"
      if lines.length > 1 then
        if (lines.getLastD "").trim = "```" then
          String.intercalate "\n" (lines.drop 1).dropLast
        else String.intercalate "\n" (lines.drop 1)
      else proof
    else proof
  if proof.startsWith ":= " then (proof.drop 3).trim else proof

/-- Token usage of a completion response. -/
structure Usage where
  prompt_tokens : ℕ
  completion_tokens : ℕ
  total_tokens : ℕ
deriving DecidableEq, Repr

/-- The parts of a provider response object read by `generate`:
`choices[0].message.content` (possibly `None`) and `usage` (possibly
`None`). -/
structure ModelResponse where
  content : Option String
  usage : Option Usage
deriving DecidableEq, Repr

/-- The dictionary returned by `timed_completion`: `success=False` when the
request raised inside the wrapper (the `response` field then holds the
exception), `success=True` with a response object otherwise.  The code's
extra `isinstance(result['response'], Exception)` test is subsumed:
a `success=True` result never carries an exception. -/
inductive TimedResult where
  | failure : ℚ → TimedResult
  | ok : ModelResponse → ℚ → TimedResult
deriving DecidableEq, Repr

/-- One slot of the `asyncio.gather(..., return_exceptions=True)` result:
either an exception object that escaped `timed_completion`, or its
dictionary. -/
inductive SlotResult where
  | exn : SlotResult
  | timed : TimedResult → SlotResult
deriving DecidableEq, Repr

/-- One slot of the five parallel per-candidate arrays built by `generate`
(candidate text, duration, prompt/completion/total tokens). -/
structure GenSlot where
  candidate : String
  duration : ℚ
  prompt_tokens : ℕ
  completion_tokens : ℕ
  total_tokens : ℕ
deriving DecidableEq, Repr

/-- The all-default slot appended for a degraded request. -/
def zeroSlot : GenSlot := ⟨"", 0, 0, 0, 0⟩

/-- The per-result classification in the `for result in results` loop of
`generate`.  `none` models the branch that raises: on a successful response
with non-`None` content but `usage = None`, the unguarded accesses
`result['response'].usage.prompt_tokens` raise an `AttributeError`, caught
only by the outer batch-level `except`. -/
def classifySlot : SlotResult → Option GenSlot
  | .exn => some zeroSlot
  | .timed (.failure d) => some ⟨"", d, 0, 0, 0⟩
  | .timed (.ok r d) =>
      match r.content with
      | none =>
          some ⟨"", d,
            (match r.usage with | some u => u.prompt_tokens | none => 0),
            (match r.usage with | some u => u.completion_tokens | none => 0),
            (match r.usage with | some u => u.total_tokens | none => 0)⟩
      | some s =>
          match r.usage with
          | none => none
          | some u =>
              some ⟨extract_proof_from_response s, d, u.prompt_tokens,
                u.completion_tokens, u.total_tokens⟩

/-- The whole classification loop over one gathered batch; `none` when an
iteration raises (the batch-level `except` then fires). -/
def classifyLoop : List SlotResult → Option (List GenSlot)
  | [] => some []
  | r :: rs => do
      let s ← classifySlot r
      let rest ← classifyLoop rs
      pure (s :: rest)

/-- What one dispatched batch produced: a batch-level exception (e.g. the
gather call itself failing), or one `SlotResult` per requested slot —
`asyncio.gather` over `current_batch_size` coroutines always yields exactly
that many results, modelled by indexing a slot function. -/
inductive BatchOutcome where
  | exnBatch : BatchOutcome
  | slots : (ℕ → SlotResult) → BatchOutcome

/-- One iteration of the `for i in range(0, n_candidates, batch_size)` loop
body: classify the gathered results, degrading the whole batch of size `sz`
to default slots when the `try` block raises (batch-level exception or a
raising classification). -/
def processBatch (sz : ℕ) : BatchOutcome → List GenSlot
  | .exnBatch => List.replicate sz zeroSlot
  | .slots f =>
      match classifyLoop ((List.range sz).map f) with
      | some outs => outs
      | none => List.replicate sz zeroSlot

/-- The batching loop of `generate`: starting at offset `i` with batch
index `b`, dispatch batches of `min batch_size (n_candidates - i)` slots
while `i < n_candidates`.  `fuel` bounds the number of iterations (any
`fuel ≥ n_candidates` is enough when `batch_size ≥ 1`). -/
def genGo (batches : ℕ → BatchOutcome) (batch_size n_candidates : ℕ) :
    ℕ → ℕ → ℕ → List GenSlot
  | _, _, 0 => []
  | i, b, fuel + 1 =>
      if i < n_candidates then
        processBatch (min batch_size (n_candidates - i)) (batches b) ++
          genGo batches batch_size n_candidates (i + batch_size) (b + 1) fuel
      else []

/-- `generate` from `src/src/generate.py`, as a function of the batch
outcomes: the concatenation of all per-batch slot lists. -/
def generate (n_candidates batch_size : ℕ) (batches : ℕ → BatchOutcome) :
    List GenSlot :=
  genGo batches batch_size n_candidates 0 0 n_candidates

theorem classifyLoop_length :
    ∀ (rs : List SlotResult) (outs : List GenSlot),
      classifyLoop rs = some outs → outs.length = rs.length := by
  intro rs
  induction rs with
  | nil => intro outs h; cases h; rfl
  | cons r rs ih =>
      intro outs h
      simp only [classifyLoop, bind, Option.bind_eq_some, pure] at h
      obtain ⟨s, _, rest, hrest, hout⟩ := h
      cases hout
      simp only [List.length_cons, ih rest hrest]

theorem processBatch_length (sz : ℕ) (b : BatchOutcome) :
    (processBatch sz b).length = sz := by
  cases b with
  | exnBatch => simp [processBatch]
  | slots f =>
      cases h : classifyLoop ((List.range sz).map f) with
      | none => simp [processBatch, h]
      | some outs =>
          simp only [processBatch, h]
          rw [classifyLoop_length _ _ h, List.length_map, List.length_range]

theorem genGo_length (batches : ℕ → BatchOutcome) (batch_size n : ℕ)
    (hbs : 1 ≤ batch_size) :
    ∀ (fuel i b : ℕ), n ≤ i + fuel →
      (genGo batches batch_size n i b fuel).length = n - i := by
  intro fuel
  induction fuel with
  | zero => intro i b h; simp only [genGo, List.length_nil]; omega
  | succ m ih =>
      intro i b h
      unfold genGo
      split
      · rw [List.length_append, processBatch_length,
          ih (i + batch_size) (b + 1) (by omega)]
        omega
      · simp only [List.length_nil]; omega

/-! ## Helper lemmas for the metrics claims -/

/-- Collapsing an indeterminate (`null`) or absent `is_correct` field to the
boolean `false`, leaving genuine booleans untouched. -/
def collapseIndeterminate (c : CandidateRec) : CandidateRec :=
  if c.is_correct = .vbool true then c else { c with is_correct := .vbool false }

theorem truthy_collapseIndeterminate (c : CandidateRec) :
    (collapseIndeterminate c).is_correct.truthy = c.is_correct.truthy := by
  unfold collapseIndeterminate
  split
  · rfl
  · rename_i h
    cases hc : c.is_correct with
    | absent => rfl
    | vnull => rfl
    | vbool b => cases b <;> simp_all [CorrectVal.truthy]

theorem collapseIndeterminate_eq_self (c : CandidateRec)
    (h : c.is_correct.truthy = true) : collapseIndeterminate c = c := by
  unfold collapseIndeterminate
  split
  · rfl
  · rename_i hne
    exfalso
    cases hc : c.is_correct with
    | absent => rw [hc] at h; exact Bool.noConfusion h
    | vnull => rw [hc] at h; exact Bool.noConfusion h
    | vbool b =>
        rw [hc] at h
        cases b
        · exact Bool.noConfusion h
        · exact hne (by rw [hc])

theorem correctCount_map_collapse (candidates : List CandidateRec) :
    correctCount (candidates.map collapseIndeterminate) = correctCount candidates := by
  induction candidates with
  | nil => rfl
  | cons c cs ih =>
      simp only [correctCount, List.map_cons, List.filter] at *
      rw [truthy_collapseIndeterminate]
      cases c.is_correct.truthy <;> simp [ih]

theorem longestStep_collapse (acc : String × ℕ × Option CandidateRec)
    (c : CandidateRec) :
    longestStep acc (collapseIndeterminate c) = longestStep acc c := by
  unfold longestStep
  rw [truthy_collapseIndeterminate]
  cases h : c.is_correct.truthy with
  | false => simp
  | true => rw [collapseIndeterminate_eq_self c h]

theorem find_longest_scan_selects_truthy (candidates : List CandidateRec) :
    ∀ acc : String × ℕ × Option CandidateRec,
      (∀ c, acc.2.2 = some c → c.is_correct.truthy = true) →
      ∀ c, (candidates.foldl longestStep acc).2.2 = some c →
        c.is_correct.truthy = true := by
  induction candidates with
  | nil => intro acc hacc c hc; exact hacc c hc
  | cons x xs ih =>
      intro acc hacc c hc
      refine ih (longestStep acc x) ?_ c hc
      intro d hd
      unfold longestStep at hd
      by_cases hx : x.is_correct.truthy = true
      · rw [hx] at hd
        simp only [if_true] at hd
        by_cases hlen : x.proof.length > acc.2.1
        · rw [if_pos hlen] at hd
          cases hd
          exact hx
        · rw [if_neg hlen] at hd
          exact hacc d hd
      · rw [Bool.not_eq_true] at hx
        rw [hx] at hd
        simp only [Bool.false_eq_true, if_false] at hd
        exact hacc d hd

/-! ## Claim theorems: metrics (C1, C9, C10) -/

/-- C1: `compute_pass_at_k` returns `0` on an empty candidate list or when no
candidate is marked correct; otherwise, with `k` clamped to `n = #candidates`
when `k > n` (i.e. replaced by `min k n`), it returns `1` when the correct
count reaches the clamped `k`, and `1 − C(n−c,k)/C(n,k)` with exact binomial
coefficients otherwise. -/
theorem C1_pass_at_k_formula (candidates : List CandidateRec) (k : ℕ)
    (_hk : 1 ≤ k) :
    (candidates = [] ∨ correctCount candidates = 0 →
      compute_pass_at_k candidates k = 0) ∧
    (candidates ≠ [] → correctCount candidates ≠ 0 →
      (min k candidates.length ≤ correctCount candidates →
        compute_pass_at_k candidates k = 1) ∧
      (correctCount candidates < min k candidates.length →
        compute_pass_at_k candidates k =
          1 - ((candidates.length - correctCount candidates).choose
                 (min k candidates.length) : ℚ)
              / (candidates.length.choose (min k candidates.length) : ℚ))) := by
  have hclamp : clamp k candidates.length = min k candidates.length := by
    unfold clamp; split <;> omega
  constructor
  · rintro (h | h)
    · simp [compute_pass_at_k, h]
    · simp [compute_pass_at_k, h]
  · intro hne hc
    constructor
    · intro hge
      rw [compute_pass_at_k, if_neg hne, if_neg hc, hclamp, if_pos hge]
    · intro hlt
      rw [compute_pass_at_k, if_neg hne, if_neg hc, hclamp, if_neg (by omega)]

/-- Witness for C1 at a concrete input: three candidates, two of them
correct, `k = 2`, landing in the `c ≥ k` branch. -/
theorem C1_pass_at_k_formula_witness :
    (1 : ℕ) ≤ 2 ∧
    compute_pass_at_k
      [⟨"p1", .vbool true⟩, ⟨"p2", .vbool false⟩, ⟨"p3", .vbool true⟩] 2 = 1 :=
  ⟨by decide,
    ((C1_pass_at_k_formula
        [⟨"p1", .vbool true⟩, ⟨"p2", .vbool false⟩, ⟨"p3", .vbool true⟩] 2
        (by decide)).2 (by decide) (by decide)).1 (by decide)⟩

/-- C9 (code bug): `compute_pass_at_k` is *not* monotone in `k`.  On ten
candidates with two marked correct, the `correct_count ≥ k` early return
yields `1` at `k = 2`, while `k = 3` yields `1 − C(8,3)/C(10,3) = 8/15 < 1`.
This contradicts the code's own comment
`pass@k = 1 - C(n-correct, k) / C(n, k)`, which at `k = 2` gives
`1 − C(8,2)/C(10,2) = 17/45`, and which is monotone in `k`. -/
theorem C9_monotonicity_failing_input :
    compute_pass_at_k (List.replicate 2 ⟨"p", .vbool true⟩ ++
      List.replicate 8 ⟨"p", .vbool false⟩) 2 = 1 ∧
    compute_pass_at_k (List.replicate 2 ⟨"p", .vbool true⟩ ++
      List.replicate 8 ⟨"p", .vbool false⟩) 3 = 8 / 15 ∧
    ¬ (compute_pass_at_k (List.replicate 2 ⟨"p", .vbool true⟩ ++
          List.replicate 8 ⟨"p", .vbool false⟩) 2 ≤
        compute_pass_at_k (List.replicate 2 ⟨"p", .vbool true⟩ ++
          List.replicate 8 ⟨"p", .vbool false⟩) 3) := by
  have h2 : compute_pass_at_k (List.replicate 2 ⟨"p", .vbool true⟩ ++
      List.replicate 8 ⟨"p", .vbool false⟩) 2 = 1 := by decide
  have h3 : compute_pass_at_k (List.replicate 2 ⟨"p", .vbool true⟩ ++
      List.replicate 8 ⟨"p", .vbool false⟩) 3 = 8 / 15 := by
    simp [compute_pass_at_k, correctCount, List.filter, CorrectVal.truthy,
      clamp, List.replicate]
    norm_num [Nat.choose]
  refine ⟨h2, h3, ?_⟩
  rw [h2, h3]
  norm_num

/-- C10: candidates whose `is_correct` field is indeterminate (`null`) or
absent behave exactly like incorrect candidates in every aggregation:
collapsing such fields to `false` changes neither the correct count, nor
`compute_pass_at_k`, nor `has_correct_proof`, nor the longest-correct-proof
scan; and the scan only ever selects a candidate whose `is_correct` is the
boolean `true`. -/
theorem C10_indeterminate_collapses_to_failure
    (candidates : List CandidateRec) (k : ℕ) :
    correctCount (candidates.map collapseIndeterminate) =
      correctCount candidates ∧
    compute_pass_at_k (candidates.map collapseIndeterminate) k =
      compute_pass_at_k candidates k ∧
    has_correct_proof (candidates.map collapseIndeterminate) =
      has_correct_proof candidates ∧
    find_longest_scan (candidates.map collapseIndeterminate) =
      find_longest_scan candidates ∧
    (∀ c, (find_longest_scan candidates).2.2 = some c →
      c.is_correct.truthy = true) := by
  refine ⟨correctCount_map_collapse candidates, ?_, ?_, ?_, ?_⟩
  · rw [compute_pass_at_k, compute_pass_at_k, correctCount_map_collapse,
      List.length_map]
    by_cases hnil : candidates = []
    · subst hnil; rfl
    · rw [if_neg (by simpa using hnil), if_neg hnil]
  · unfold has_correct_proof
    rw [List.any_map]
    refine congrArg _ ?_
    funext c
    exact truthy_collapseIndeterminate c
  · unfold find_longest_scan
    rw [List.foldl_map]
    simp only [longestStep_collapse]
  · exact find_longest_scan_selects_truthy candidates ("", 0, none)
      (by intro c hc; exact Option.noConfusion hc)

/-- Witness for C10: on a list containing a `null`, an absent and a correct
candidate, the scan selects the correct one. -/
theorem C10_indeterminate_collapses_to_failure_witness :
    (find_longest_scan
        [⟨"a", .vnull⟩, ⟨"bb", .absent⟩, ⟨"c", .vbool true⟩]).2.2 =
      some ⟨"c", .vbool true⟩ ∧
    (⟨"c", .vbool true⟩ : CandidateRec).is_correct.truthy = true :=
  ⟨by decide,
    (C10_indeterminate_collapses_to_failure
      [⟨"a", .vnull⟩, ⟨"bb", .absent⟩, ⟨"c", .vbool true⟩] 1).2.2.2.2
      ⟨"c", .vbool true⟩ (by decide)⟩

/-! ## Claim theorems: checker adapter and retry (C3, C4, C5) -/

/-- C3: when the checker response is not a process-level error but the code
is invalid with at least one diagnostic, the recorded slot uses only the
first diagnostic: correctness `false`, its text as error message, its
(start, end) pair as error position when both ends are present (else none),
and `start line − number of statement lines` as compiled lines when a start
position is present (else none). -/
theorem C3_first_diagnostic_outcome (theorem_statement proof : String)
    (m : DiagMessage) (rest : List DiagMessage) :
    ∃ o, checkOutcome theorem_statement proof
        (.output (.response false (m :: rest))) = some o ∧
      o.correctness = some false ∧
      o.error_message = some m.data ∧
      (∀ s e, m.start_pos = some s → m.end_pos = some e →
        o.error_position = some (s, e)) ∧
      (m.start_pos = none ∨ m.end_pos = none → o.error_position = none) ∧
      (∀ s, m.start_pos = some s →
        o.compiled_lines =
          some (s.line - (pySplitlinesLen theorem_statement : ℤ))) ∧
      (m.start_pos = none → o.compiled_lines = none) := by
  refine ⟨_, rfl, rfl, rfl, ?_, ?_, ?_, ?_⟩
  · intro s e hs he
    simp only [hs, he]
  · rintro (h | h)
    · simp only [h]
    · rcases hm : m.start_pos with _ | s
      · simp only [hm]
      · simp only [hm, h]
  · intro s hs
    simp only [hs]
  · intro h
    simp only [h]

/-- Witness for C3 (Example 2 of the spec): a diagnostic at start (12,4),
end (12,10), with a 5-line theorem statement, yields compiled lines
`12 − 5 = 7`. -/
theorem C3_first_diagnostic_outcome_witness :
    ∃ o, checkOutcome "l1\nl2\nl3\nl4\nl5" "proofbody"
        (.output (.response false
          [⟨"type mismatch", some ⟨12, 4⟩, some ⟨12, 10⟩⟩])) = some o ∧
      o.error_position = some (⟨12, 4⟩, ⟨12, 10⟩) ∧
      o.compiled_lines = some 7 := by
  obtain ⟨o, ho, _, _, hpos, _, hcl, _⟩ :=
    C3_first_diagnostic_outcome "l1\nl2\nl3\nl4\nl5" "proofbody"
      ⟨"type mismatch", some ⟨12, 4⟩, some ⟨12, 10⟩⟩ []
  refine ⟨o, ho, hpos ⟨12, 4⟩ ⟨12, 10⟩ rfl rfl, ?_⟩
  rw [hcl ⟨12, 4⟩ rfl]
  have h5 : pySplitlinesLen "l1\nl2\nl3\nl4\nl5" = 5 := by decide
  rw [h5]
  norm_num

/-- C4: a `check` call that raises a timeout or transport-level failure
records the fully indeterminate slot (correctness and every diagnostic
field `none`), and this is distinguished from any definite outcome: every
slot produced from an actual checker output has a non-`none` correctness. -/
theorem C4_transport_failure_indeterminate (theorem_statement proof : String) :
    checkOutcome theorem_statement proof .transportFailure =
      some ⟨none, none, none, none⟩ ∧
    (∀ msg, checkOutcome theorem_statement proof (.output (.leanError msg)) =
      some ⟨some false, some msg, none, none⟩) ∧
    (∀ lo o, checkOutcome theorem_statement proof (.output lo) = some o →
      o.correctness ≠ none) := by
  refine ⟨rfl, fun msg => rfl, ?_⟩
  intro lo o h
  cases lo with
  | leanError msg =>
      cases h
      simp
  | response valid msgs =>
      cases valid with
      | true =>
          simp only [checkOutcome, if_pos] at h
          cases h
          simp
      | false =>
          simp only [checkOutcome, Bool.false_eq_true, if_false] at h
          cases msgs with
          | nil => exact Option.noConfusion h
          | cons m rest =>
              cases h
              simp

/-- Witness for C4 at a concrete input. -/
theorem C4_transport_failure_indeterminate_witness :
    checkOutcome "theorem t : True" "trivial" .transportFailure =
      some ⟨none, none, none, none⟩ ∧
    (checkOutcome "theorem t : True" "trivial"
        (.output (.leanError "unexpected end of input"))).map
      Outcome.correctness ≠ some none :=
  ⟨(C4_transport_failure_indeterminate "theorem t : True" "trivial").1,
    by
      have h := (C4_transport_failure_indeterminate "theorem t : True"
        "trivial").2.2 (.leanError "unexpected end of input")
      intro hc
      cases ho : checkOutcome "theorem t : True" "trivial"
          (.output (.leanError "unexpected end of input")) with
      | none => rw [ho] at hc; exact Option.noConfusion hc
      | some o =>
          rw [ho] at hc
          exact h o ho (Option.some.injEq _ _ ▸ hc |> Option.some.inj)⟩

/-- C5: each per-task validation attempt that raises is retried, up to
`validateTries = 3` attempts for first-pass validation and
`revalidateTries = 5` for re-validation; the loop never looks beyond the
bound; and when every attempt raises, the persisted record is the all-`none`
indeterminate record (the run is not aborted — the loop always returns a
record, stored unconditionally). -/
theorem C5_retry_exhaustion_persists_all_none :
    (∀ (attempts : ℕ → Option ValidationRecord) (idx : ℕ),
      (∀ i, i < validateTries → attempts i = none) →
      runTaskValidation attempts validateTries idx = initRecord idx) ∧
    (∀ (attempts : ℕ → Option ValidationRecord) (idx : ℕ),
      (∀ i, i < revalidateTries → attempts i = none) →
      runTaskValidation attempts revalidateTries idx = initRecord idx) ∧
    (∀ (a1 a2 : ℕ → Option ValidationRecord) (bound idx : ℕ),
      (∀ i, i < bound → a1 i = a2 i) →
      runTaskValidation a1 bound idx = runTaskValidation a2 bound idx) := by
  refine ⟨?_, ?_, ?_⟩
  · intro attempts idx h
    exact retryGo_all_fail attempts validateTries 0 (initRecord idx)
      (fun t _ ht => h t (by omega))
  · intro attempts idx h
    exact retryGo_all_fail attempts revalidateTries 0 (initRecord idx)
      (fun t _ ht => h t (by omega))
  · intro a1 a2 bound idx h
    exact retryGo_congr a1 a2 bound 0 (initRecord idx)
      (fun t _ ht => h t (by omega))

/-- Witness for C5: with every attempt raising, both retry loops persist
the all-`none` record for task index 7. -/
theorem C5_retry_exhaustion_persists_all_none_witness :
    runTaskValidation (fun _ => none) validateTries 7 = initRecord 7 ∧
    runTaskValidation (fun _ => none) revalidateTries 7 = initRecord 7 ∧
    runTaskValidation (fun _ => none) validateTries 7 =
      runTaskValidation (fun i => if i < validateTries then none else
        some (initRecord 0)) validateTries 7 :=
  ⟨C5_retry_exhaustion_persists_all_none.1 (fun _ => none) 7 (fun _ _ => rfl),
    C5_retry_exhaustion_persists_all_none.2.1 (fun _ => none) 7
      (fun _ _ => rfl),
    C5_retry_exhaustion_persists_all_none.2.2 (fun _ => none) _
      validateTries 7
      (fun i hi => by simp [hi])⟩

/-- C6: the re-validation pass schedules exactly the indices whose stored
entry is malformed (a `None` `correctness`/`error_messages`/`error_positions`
field, one of those arrays of length other than the run's expected candidate
count `expected_len = 6`, or a `None` inside the `correctness` array); the
repair loop preserves the file length, leaves every well-formed entry
unchanged, and when no entry is malformed it re-runs nothing and returns the
stored list unchanged. -/
theorem C6_revalidate_selection_and_repair (v : List ValidationRecord)
    (attempts : ℕ → ℕ → Option ValidationRecord) :
    (∀ i, i ∈ revalidateIndices v ↔
      i < v.length ∧ malformedEntry (v.getD i (initRecord 0)) = true) ∧
    (repairPass v attempts).length = v.length ∧
    (∀ j, j < v.length → malformedEntry (v.getD j (initRecord 0)) = false →
      (repairPass v attempts).getD j (initRecord 0) =
        v.getD j (initRecord 0)) ∧
    ((∀ j, j < v.length → malformedEntry (v.getD j (initRecord 0)) = false) →
      repairPass v attempts = v) := by
  have hmem : ∀ i, i ∈ revalidateIndices v ↔
      i < v.length ∧ malformedEntry (v.getD i (initRecord 0)) = true := by
    intro i
    simp [revalidateIndices, List.mem_filter, List.mem_range]
  refine ⟨hmem, ?_, ?_, ?_⟩
  · exact foldl_set_length _ _ _
  · intro j hj hwell
    refine foldl_set_not_mem _ _ _ j ?_
    intro hmemj
    rw [(hmem j).1 hmemj |>.2] at hwell
    exact Bool.noConfusion hwell
  · intro hall
    have hnil : revalidateIndices v = [] := by
      rw [revalidateIndices, List.filter_eq_nil_iff]
      intro i hi
      rw [List.mem_range] at hi
      rw [hall i hi]
      exact Bool.noConfusion
    unfold repairPass
    rw [hnil]
    rfl

/-- Witness for C6: a two-entry file whose first entry is well-formed
(arrays of length 6, no indeterminate correctness) and whose second is the
all-`None` record: only index 1 is scheduled, and the repair leaves entry 0
untouched. -/
theorem C6_revalidate_selection_and_repair_witness :
    (1 ∈ revalidateIndices
        [⟨0, some (List.replicate 6 (some true)), some (List.replicate 6 none),
          some (List.replicate 6 none), some (List.replicate 6 none)⟩,
         initRecord 1] ↔
      1 < 2 ∧ malformedEntry (initRecord 1) = true) ∧
    (repairPass
        [⟨0, some (List.replicate 6 (some true)), some (List.replicate 6 none),
          some (List.replicate 6 none), some (List.replicate 6 none)⟩,
         initRecord 1] (fun _ _ => none)).getD 0 (initRecord 0) =
      ⟨0, some (List.replicate 6 (some true)), some (List.replicate 6 none),
        some (List.replicate 6 none), some (List.replicate 6 none)⟩ :=
  ⟨by
      have h := (C6_revalidate_selection_and_repair
        [⟨0, some (List.replicate 6 (some true)), some (List.replicate 6 none),
          some (List.replicate 6 none), some (List.replicate 6 none)⟩,
         initRecord 1] (fun _ _ => none)).1 1
      simpa using h,
    (C6_revalidate_selection_and_repair
        [⟨0, some (List.replicate 6 (some true)), some (List.replicate 6 none),
          some (List.replicate 6 none), some (List.replicate 6 none)⟩,
         initRecord 1] (fun _ _ => none)).2.2.1 0 (by decide) (by decide)⟩

/-- C2 (counterexample): the merge does *not* raise on every length
mismatch.  With one generated candidate but validation arrays of length
two, `combine_files` silently uses the first entry of each validation array
and produces a merged record for the task. -/
theorem C2_length_mismatch_counterexample :
    ([some true, some false] : List (Option Bool)).length ≠
      (["p"] : List String).length ∧
    mergeTask ⟨["p"], [1], [10], [20], [30]⟩
        ⟨0, some [some true, some false], some [none, none], some [none, none],
          some [none, none]⟩ =
      some [⟨"p", some true, 1, 10, 20, 30, none, none, none⟩] :=
  ⟨by decide, rfl⟩

/-- C2 (amended): when the stored validation correctness is a list and any
of the four validation arrays (`correctness`, `error_messages`,
`error_positions`, `compiled_line_counts`) is *shorter* than the generation
candidates array, the merge raises immediately (an `IndexError` while
building the mismatching task) rather than producing a merged record for
that task; validation arrays longer than the candidates array are silently
truncated instead (see the counterexample). -/
theorem C2_short_validation_arrays_raise (gen : GenResult)
    (val : ValidationRecord) (corr : List (Option Bool))
    (em : List (Option String)) (ep : List (Option (SrcPos × SrcPos)))
    (cl : List (Option ℤ)) (hc : val.correctness = some corr)
    (hem : val.error_messages = some em) (hep : val.error_positions = some ep)
    (hcl : val.compiled_line_counts = some cl)
    (hshort : corr.length < gen.candidates.length ∨
      em.length < gen.candidates.length ∨
      ep.length < gen.candidates.length ∨
      cl.length < gen.candidates.length) :
    mergeTask gen val = none := by
  cases hmt : mergeTask gen val with
  | none => rfl
  | some out =>
      exfalso
      have hn : 0 < gen.candidates.length := by omega
      obtain ⟨c, hcand⟩ := mergeLoop_success_at gen val gen.candidates.length
        0 out hmt (gen.candidates.length - 1) (by omega) (by omega)
      have hb := mergeCandidate_length_bounds gen val corr em ep cl hc hem
        hep hcl _ c hcand
      omega

/-- Witness for the amended C2: one generated candidate and empty
validation arrays make the per-task merge raise. -/
theorem C2_short_validation_arrays_raise_witness :
    mergeTask ⟨["p"], [1], [1], [1], [1]⟩ ⟨0, some [], some [], some [],
      some []⟩ = none :=
  C2_short_validation_arrays_raise _ _ [] [] [] [] rfl rfl rfl rfl
    (Or.inl (by decide))

/-- C7: when the stored validation correctness for a task is a singular
`None`, the merge produces one candidate entry per generated candidate,
with `is_correct`, `compiled_lines`, `error_message` and `error_position`
all `none`, preserving the generation-side proof text and telemetry, and
raises no exception. -/
theorem C7_null_correctness_merges_indeterminate (gen : GenResult)
    (val : ValidationRecord) (hnull : val.correctness = none)
    (hd : gen.durations.length = gen.candidates.length)
    (hpt : gen.prompt_tokens.length = gen.candidates.length)
    (hct : gen.completion_tokens.length = gen.candidates.length)
    (htt : gen.total_tokens.length = gen.candidates.length) :
    ∃ out, mergeTask gen val = some out ∧
      out.length = gen.candidates.length ∧
      ∀ j, j < gen.candidates.length →
        out.getD j ⟨"", none, 0, 0, 0, 0, none, none, none⟩ =
          ⟨gen.candidates.getD j "", none, gen.durations.getD j 0,
            gen.prompt_tokens.getD j 0, gen.completion_tokens.getD j 0,
            gen.total_tokens.getD j 0, none, none, none⟩ := by
  have h := mergeLoop_null gen val hnull hd hpt hct htt
    gen.candidates.length 0 (by omega)
  refine ⟨_, h, ?_, ?_⟩
  · rw [List.length_map, List.length_range]
  · intro j hj
    have hjq : ((List.range gen.candidates.length).map
        (fun j => nullMergedCand gen (0 + j)))[j]? =
        some (nullMergedCand gen (0 + j)) := by
      rw [List.getElem?_map, List.getElem?_range hj]
      rfl
    unfold List.getD
    rw [List.get?_eq_getElem?, hjq]
    unfold nullMergedCand
    rw [Nat.zero_add]
    rfl

/-- Witness for C7: two candidates with their telemetry, validation
correctness a singular `None`. -/
theorem C7_null_correctness_merges_indeterminate_witness :
    ∃ out, mergeTask ⟨["a", "b"], [1, 2], [3, 4], [5, 6], [7, 8]⟩
        (initRecord 0) = some out ∧
      out.length = 2 ∧
      out.getD 0 ⟨"", none, 0, 0, 0, 0, none, none, none⟩ =
        ⟨"a", none, 1, 3, 5, 7, none, none, none⟩ := by
  obtain ⟨out, h1, h2, h3⟩ := C7_null_correctness_merges_indeterminate
    ⟨["a", "b"], [1, 2], [3, 4], [5, 6], [7, 8]⟩ (initRecord 0)
    rfl rfl rfl rfl rfl
  have h4 := h3 0 (by decide)
  exact ⟨out, h1, h2, h4.trans (by rfl)⟩

/-- C8 (counterexample): a request that fails inside the timed completion
wrapper (where transport exceptions and provider-reported failures are
caught) does *not* get zero telemetry: its candidate is empty and its token
counts are zero, but the recorded duration is the measured elapsed time
(`result['duration']`), here `2`, not `0`. -/
theorem C8_failed_request_keeps_duration :
    classifySlot (.timed (.failure 2)) = some ⟨"", 2, 0, 0, 0⟩ ∧
    (2 : ℚ) ≠ 0 :=
  ⟨rfl, by norm_num⟩

/-- C8 (amended): an exception surfacing directly in the gather results
yields an empty candidate with duration `0` and zero token counts; a
request that failed inside the timed wrapper (transport or provider
failure) yields an empty candidate and zero token counts but keeps its
measured duration; a successful response with empty content yields an
empty proof text and preserves the available telemetry (token counts from
`usage` when present, else zero); a batch-level exception degrades every
slot of that batch to the all-default slot; and the returned parallel
arrays always have length `n_candidates`. -/
theorem C8_degraded_slots_and_length (d : ℚ) (w : Usage) (sz : ℕ) :
    classifySlot .exn = some ⟨"", 0, 0, 0, 0⟩ ∧
    classifySlot (.timed (.failure d)) = some ⟨"", d, 0, 0, 0⟩ ∧
    classifySlot (.timed (.ok ⟨none, some w⟩ d)) =
      some ⟨"", d, w.prompt_tokens, w.completion_tokens, w.total_tokens⟩ ∧
    classifySlot (.timed (.ok ⟨none, none⟩ d)) = some ⟨"", d, 0, 0, 0⟩ ∧
    processBatch sz .exnBatch = List.replicate sz ⟨"", 0, 0, 0, 0⟩ ∧
    (∀ (batch_size n : ℕ) (batches : ℕ → BatchOutcome), 1 ≤ batch_size →
      (generate n batch_size batches).length = n) := by
  refine ⟨rfl, rfl, rfl, rfl, rfl, ?_⟩
  intro batch_size n batches hbs
  have h := genGo_length batches batch_size n hbs n 0 0 (by omega)
  rw [generate, h, Nat.sub_zero]

/-- Witness for the amended C8: six candidates requested in batches of
three, every batch degraded, still yields six slots. -/
theorem C8_degraded_slots_and_length_witness :
    (generate 6 3 (fun _ => .exnBatch)).length = 6 :=
  (C8_degraded_slots_and_length 0 ⟨0, 0, 0⟩ 0).2.2.2.2.2 3 6
    (fun _ => .exnBatch) (by decide)

end LeanLlmTest
